import Mathlib

/-!
Shallow embedding of the Odin CLI front end (src/cli/src/cli.ts).

The CLI resolves user intent, either from command-line flags or from an
interactive wizard, into option objects and dispatches them to external
collaborators (newProject, serveProject, buildProject, setConfiguration,
login).  We embed:

* the inquirer answer bag and question list with conditional `when`
  predicates (`promptList`),
* the three validators (project name, port, proxy URL),
* the option resolvers of the `new` and `serve` commands in flag mode and
  wizard mode,
* the dispatch wrappers with their console output and process-exit
  behaviour, recorded as a trace of events plus an outcome, and
* the command router, including the handler for unknown commands.

Collaborator calls are opaque: their result is a parameter of type
`CollabResult` (success or a raised error), and a `Event.call` entry in the
trace records that the collaborator was invoked.
-/

namespace OdinCli

/-- A value a user can give to an inquirer question: input and list questions
yield strings, confirm questions yield booleans. -/
inductive Ans
| s (v : String)
| b (v : Bool)
deriving DecidableEq

/-- The untyped answer bag returned by `inquirer.prompt`: a partial map from
question names to answers.  A skipped question leaves its key absent
(`none`), which models the missing property on the JavaScript object. -/
def AnswerMap : Type := String → Option Ans

def emptyAnswers : AnswerMap := fun _ => none

def insertAns (m : AnswerMap) (k : String) (v : Ans) : AnswerMap :=
  fun q => if q = k then some v else m q

/-- JavaScript `Boolean()` applied to an answer-bag lookup: `undefined` is
falsy, a boolean is itself, a string is truthy iff nonempty. -/
def ansTruthy : Option Ans → Bool
| none => false
| some (Ans.b v) => v
| some (Ans.s v) => !v.data.isEmpty

/-- JavaScript `String()` coercion of an answer-bag lookup, as performed by
`parseInt` on its argument. -/
def ansToStringJs : Option Ans → String
| some (Ans.s v) => v
| some (Ans.b true) => "true"
| some (Ans.b false) => "false"
| none => "undefined"

/-- JavaScript strict equality `x === t` between an answer-bag lookup and a
string literal: true only when the lookup holds an equal string. -/
def jsEqStr (a : Option Ans) (t : String) : Bool :=
  match a with
  | some (Ans.s v) => v = t
  | _ => false

/-- Result of an inquirer `validate` callback: `true` (accept) or a rejection
message shown to the user before the question is asked again. -/
inductive Valid
| ok
| reject (reason : String)
deriving DecidableEq

/-- Character class of the project-name regex `[a-zA-Z0-9-]`. -/
def isNameChar (c : Char) : Bool := c.isAlpha || c.isDigit || c = '-'

/-- JavaScript `name.match(/^[a-zA-Z0-9-]+$/) !== null`: the whole string is
nonempty and consists of letters, digits and dashes. -/
def matchesNamePattern (s : String) : Bool := !s.data.isEmpty && s.data.all isNameChar

/-- The `validate` callback of the project-name question (cli.ts lines
159-167), parametrised by the ambient `fs.existsSync`. -/
def nameValidate (fsExists : String → Bool) (name : String) : Valid :=
  if !matchesNamePattern name then
    Valid.reject "The project name can only have letters, numbers and dashes"
  else if fsExists name then
    Valid.reject "The directory already exists."
  else
    Valid.ok

/-- JavaScript `port.match(/^\d+$/) !== null`: nonempty, digits only. -/
def matchesPortPattern (s : String) : Bool := !s.data.isEmpty && s.data.all Char.isDigit

/-- The `validate` callback of the port question (cli.ts lines 257-263). -/
def portValidate (port : String) : Valid :=
  if !matchesPortPattern port then
    Valid.reject "The port must be a number, e.g 8080"
  else
    Valid.ok

/-- Split a character list at the first occurrence of a (nonempty) separator,
returning the parts before and after it, or `none` when the separator does
not occur. -/
def splitOnceSub (sep : List Char) : List Char → Option (List Char × List Char)
| [] => none
| c :: cs =>
  if List.isPrefixOf sep (c :: cs) then some ([], List.drop sep.length (c :: cs))
  else
    match splitOnceSub sep cs with
    | some (pre, post) => some (c :: pre, post)
    | none => none

/-- Modelled from the spec: `isValidProxyUrl` is imported from
src/cli/src/utils.ts, which is not included under src/.  Per the spec it
returns true iff the input matches `protocol://hostname[:port]`: a nonempty
scheme, the literal separator `://`, a nonempty hostname and an optional
nonempty all-digit port after a colon. -/
def isValidProxyUrl (s : String) : Bool :=
  match splitOnceSub [':', '/', '/'] s.data with
  | none => false
  | some (scheme, rest) =>
    if scheme.isEmpty then false
    else
      match splitOnceSub [':'] rest with
      | none => !rest.isEmpty
      | some (host, port) => !host.isEmpty && (!port.isEmpty && port.all Char.isDigit)

/-- The `validate` callback of the proxy question (cli.ts lines 174-180). -/
def proxyValidate (input : String) : Valid :=
  if !isValidProxyUrl input then
    Valid.reject "The URL must look like the following: protocol://hostname:port"
  else
    Valid.ok

/-- An inquirer question as far as the answer-collection semantics is
concerned: its name, its `when` predicate over the previously collected
answers (absence of `when` in the source is the constant-true predicate) and
its optional `validate` callback.  Message texts and defaults are not part of
the collected-answer semantics and are omitted. -/
structure Question where
  name : String
  whenP : AnswerMap → Bool
  validateQ : Option (String → Valid)

/-- The answer-collection semantics of `inquirer.prompt(questions)`: the
questions are processed in order; a question whose `when` predicate over the
answers collected so far is false is skipped and contributes no key.  The
`user` function gives the answer the user would give to each question; for a
question with a `validate` callback, inquirer re-asks until the callback
accepts, so theorems about validated questions carry the acceptance as a
hypothesis on `user`. -/
def promptList (qs : List Question) (user : String → Ans) : AnswerMap :=
  qs.foldl (fun acc q => if q.whenP acc then insertAns acc q.name (user q.name) else acc)
    emptyAnswers

/-- Port question of the serve wizard (cli.ts lines 252-264). -/
def portQuestion : Question :=
  { name := "port", whenP := fun _ => true, validateQ := some portValidate }

/-- Multi-tenant question of the serve wizard (cli.ts lines 265-270). -/
def mtQuestion : Question :=
  { name := "multiTenant", whenP := fun _ => true, validateQ := none }

/-- Ion-api question of the serve wizard (cli.ts lines 271-277): its `when`
predicate is `Boolean(previousAnswers.multiTenant)`. -/
def ionQuestion : Question :=
  { name := "ionApi", whenP := fun prev => ansTruthy (prev "multiTenant"), validateQ := none }

/-- The question list passed to `inquirer.prompt` in `inquireServeProject`
(cli.ts line 278). -/
def serveQuestions : List Question := [portQuestion, mtQuestion, ionQuestion]

/-- A JavaScript number as produced by `parseInt`: a natural number or NaN. -/
inductive JsNumber
| nan
| num (n : Nat)
deriving DecidableEq

/-- The dynamically typed port value dispatched to `serveProject`: the flag
path can leave it a raw string, the default and the wizard path produce a
number. -/
inductive PortValue
| str (s : String)
| jsnum (v : JsNumber)
deriving DecidableEq

/-- IServeOptions as dispatched to `serveProject`. -/
structure ServeOptions where
  port : PortValue
  multiTenant : Bool
  ionApi : Bool
deriving DecidableEq

/-- Decimal accumulation of leading digits, stopping at the first non-digit,
as JavaScript `parseInt(s, 10)` does after the first character. -/
def parseDigitsAcc : List Char → Nat → Nat
| [], acc => acc
| c :: cs, acc => if c.isDigit then parseDigitsAcc cs (acc * 10 + (c.toNat - 48)) else acc

/-- JavaScript `parseInt(s, 10)` restricted to the shapes that occur here: if
the string starts with a digit, the value of its longest digit prefix,
otherwise NaN.  (Leading whitespace and sign handling never arise: the wizard
validates the input as digits-only first.) -/
def parseIntJs (s : String) : JsNumber :=
  match s.data with
  | [] => JsNumber.nan
  | c :: cs => if c.isDigit then JsNumber.num (parseDigitsAcc (c :: cs) 0) else JsNumber.nan

/-- The serve command action in flag mode (cli.ts lines 110-116): the options
object passed to `wrapServe` is built as
`{ port: options.port || 8080, multiTenant: Boolean(...), ionApi: Boolean(...) }`.
Commander hands the `--port` value through as a raw string (or leaves it
undefined); `|| 8080` replaces only a falsy value (absent or empty). -/
def serveCommandAction (portFlag : Option String) (multiTenant ionApi : Bool) : ServeOptions :=
  { port :=
      match portFlag with
      | some s => if s.data.isEmpty then PortValue.jsnum (JsNumber.num 8080) else PortValue.str s
      | none => PortValue.jsnum (JsNumber.num 8080),
    multiTenant := multiTenant,
    ionApi := ionApi }

/-- The options built by `inquireServeProject` (cli.ts lines 278-282):
`port = parseInt(answers.port, 10)`, the booleans through `Boolean()`. -/
def inquireServeProjectOptions (user : String → Ans) : ServeOptions :=
  let answers := promptList serveQuestions user
  { port := PortValue.jsnum (parseIntJs (ansToStringJs (answers "port"))),
    multiTenant := ansTruthy (answers "multiTenant"),
    ionApi := ansTruthy (answers "ionApi") }

/-- The external collaborators imported from ./commands. -/
inductive Collab
| newP
| serveP
| buildP
| setP
| loginP
deriving DecidableEq

/-- An observable step of a command action: a console.log line, a
console.error line, the help text printed by `program.outputHelp()`, or the
invocation of a collaborator. -/
inductive Event
| out (line : String)
| err (line : String)
| help
| call (c : Collab)
deriving DecidableEq

def isCallEvent : Event → Bool
| Event.call _ => true
| _ => false

/-- True iff a trace contains no collaborator invocation. -/
def noCalls (trace : List Event) : Bool := trace.all (fun e => !isCallEvent e)

/-- How a command action run ends: normal completion (process exit code 0
once the event loop drains), an explicit `process.exit(code)`, or a promise
rejection that no handler in cli.ts catches (its further fate is decided by
the Node runtime, outside this program). -/
inductive Outcome
| normal
| exit (code : Nat)
| unhandled (e : String)
deriving DecidableEq

/-- The result of an opaque collaborator call: it either resolves or raises
an error, which we carry as a string for the purpose of the trace. -/
inductive CollabResult
| ok
| error (e : String)
deriving DecidableEq

/-- The local `exit` helper (cli.ts lines 11-19): optionally print
`ERROR: <message>`, optionally print the help text, then `process.exit(1)`.
Because `process.exit` terminates the process, no code after a call to
`exit` runs; the callers below therefore short-circuit on it. -/
def exitRun (message : Option String) (outputHelp : Bool) : List Event × Outcome :=
  ((match message with
    | some m => [Event.err ("ERROR: " ++ m)]
    | none => []) ++ (if outputHelp then [Event.help] else []),
   Outcome.exit 1)

/-- `wrapServe` (cli.ts lines 21-32): check for the odin.json marker, then
invoke `serveProject` and on error log it and exit without help text. -/
def wrapServe (odinJsonExists : Bool) (r : CollabResult) : List Event × Outcome :=
  if !odinJsonExists then
    exitRun (some "Could not find an Odin configuration file.") false
  else
    match r with
    | CollabResult.ok =>
      ([Event.out "Starting Dev Server...", Event.call Collab.serveP], Outcome.normal)
    | CollabResult.error e =>
      let ex := exitRun (some "Serving was aborted because of an error") false
      ([Event.out "Starting Dev Server...", Event.call Collab.serveP, Event.err e] ++ ex.1, ex.2)

/-- The dispatched new-project options (INewProjectOptions).  Optional fields
model optional properties of the TypeScript object: `none` is an absent
property. -/
structure Proxy where
  target : String
deriving DecidableEq

structure NewProjectOptions where
  name : String
  style : String
  proxy : Option Proxy
  git : Option Bool
  angular : Option Bool
  install : Option Bool
deriving DecidableEq

/-- `wrapNew` (cli.ts lines 34-46): invoke `newProject`; on success print the
follow-up instructions, on error log it and exit without help text. -/
def wrapNew (options : NewProjectOptions) (r : CollabResult) : List Event × Outcome :=
  match r with
  | CollabResult.ok =>
    ([Event.call Collab.newP, Event.out "Done!",
      Event.out "To continue with the new project, install dependencies and start the server:",
      Event.out ("\tcd " ++ options.name), Event.out "\tnpm install", Event.out "\todin serve"],
     Outcome.normal)
  | CollabResult.error e =>
    let ex := exitRun (some "Failed to create new project") false
    ([Event.call Collab.newP, Event.err e] ++ ex.1, ex.2)

/-- The build command action (cli.ts lines 118-131): check the marker, then
`buildProject().then(log success).catch(log Build failed)`.  The catch
handler only logs; it does not call `exit`, so the process completes
normally even when the collaborator fails. -/
def buildAction (odinJsonExists : Bool) (r : CollabResult) : List Event × Outcome :=
  if !odinJsonExists then
    exitRun (some "Could not find an Odin configuration file.") false
  else
    match r with
    | CollabResult.ok =>
      ([Event.out "Building project...", Event.call Collab.buildP,
        Event.out "Project built successfully"], Outcome.normal)
    | CollabResult.error e =>
      ([Event.out "Building project...", Event.call Collab.buildP,
        Event.err ("Build failed: " ++ e)], Outcome.normal)

/-- The set command action (cli.ts lines 133-143): call
`setConfiguration(key, value)` in a try/catch; on error log it and exit
without help text.  The key and value are forwarded untouched. -/
def setAction (key value : String) (r : CollabResult) : List Event × Outcome :=
  match r with
  | CollabResult.ok => ([Event.call Collab.setP], Outcome.normal)
  | CollabResult.error e =>
    let ex := exitRun (some "Configuration failed") false
    ([Event.call Collab.setP, Event.err e] ++ ex.1, ex.2)

/-- The login command action (cli.ts lines 145-152): print the opening line,
`await login()` with no try/catch, print the closing hint.  An error raised
by `login` therefore leaves the action as an unhandled promise rejection:
cli.ts itself neither logs it nor sets an exit status. -/
def loginAction (r : CollabResult) : List Event × Outcome :=
  match r with
  | CollabResult.ok =>
    ([Event.out "Logging in to the configured environment. A separate browser window will open with the login screen.",
      Event.call Collab.loginP,
      Event.out "Done! You can now start the development server with \x27odin serve --multi-tenant\x27"],
     Outcome.normal)
  | CollabResult.error e =>
    ([Event.out "Logging in to the configured environment. A separate browser window will open with the login screen.",
      Event.call Collab.loginP], Outcome.unhandled e)

/-- The build branch of the top-level wizard (cli.ts lines 313-315): it calls
`buildProject()` directly, with no odin.json existence check (the
`odinJsonExists` parameter is read nowhere) and with no handlers attached to
the returned promise. -/
def wizardBuild (odinJsonExists : Bool) (r : CollabResult) : List Event × Outcome :=
  match r with
  | CollabResult.ok => ([Event.call Collab.buildP], Outcome.normal)
  | CollabResult.error e => ([Event.call Collab.buildP], Outcome.unhandled e)

/-- Result of the new command action in flag mode: fall back to the wizard
when no project name was given, terminate via `exit` on an invalid proxy
URL, or dispatch the resolved options to `wrapNew`. -/
inductive NewFlagResult
| wizard
| exited (trace : List Event)
| dispatch (options : NewProjectOptions)
deriving DecidableEq

/-- The tail of the new command action (cli.ts lines 79-99): style is
resolved first-match-wins (material, then soho, then none), git is true
unless --skip-git, and angular/install are set only when their flag is
present. -/
def finishNew (o : NewProjectOptions) (material soho angular install skipGit : Bool) :
    NewProjectOptions :=
  let o1 := { o with style := if material then "material" else if soho then "soho" else "none" }
  let o2 := { o1 with git := some (!skipGit) }
  let o3 := if angular then { o2 with angular := some true } else o2
  if install then { o3 with install := some true } else o3

/-- The new command action (cli.ts lines 62-102).  A falsy project name
(absent or empty) routes to the wizard.  A truthy proxy flag is validated:
an invalid URL calls `exit` with the default outputHelp = true; a valid one
adds `proxy: { target }`.  Then the remaining flags are folded in. -/
def newCommandAction (projectName : Option String) (proxyFlag : Option String)
    (material soho angular install skipGit : Bool) : NewFlagResult :=
  match projectName with
  | none => NewFlagResult.wizard
  | some pn =>
    if pn.data.isEmpty then NewFlagResult.wizard
    else
      let base : NewProjectOptions :=
        { name := pn, style := "none", proxy := none, git := none, angular := none,
          install := none }
      match proxyFlag with
      | some u =>
        if u.data.isEmpty then
          NewFlagResult.dispatch (finishNew base material soho angular install skipGit)
        else if !isValidProxyUrl u then
          NewFlagResult.exited
            (exitRun (some ("Proxy url \x27" ++ u ++
              "\x27 is invalid. It should be of the format: protocol://hostname:port")) true).1
        else
          NewFlagResult.dispatch
            (finishNew { base with proxy := some { target := u } } material soho angular install
              skipGit)
      | none => NewFlagResult.dispatch (finishNew base material soho angular install skipGit)

/-- Project-name question of the new wizard (cli.ts lines 155-168). -/
def nameQuestion (fsExists : String → Bool) : Question :=
  { name := "projectName", whenP := fun _ => true, validateQ := some (nameValidate fsExists) }

/-- Framework question of the new wizard (cli.ts lines 182-197). -/
def frameworkQuestion : Question :=
  { name := "framework", whenP := fun _ => true, validateQ := none }

/-- Style question of the new wizard (cli.ts lines 198-217). -/
def styleQuestion : Question :=
  { name := "style", whenP := fun _ => true, validateQ := none }

/-- Proxy question of the new wizard (cli.ts lines 169-181): no `when`
predicate, so it is always asked. -/
def proxyQuestion : Question :=
  { name := "proxy", whenP := fun _ => true, validateQ := some proxyValidate }

/-- Git question of the new wizard (cli.ts lines 218-223). -/
def gitQuestion : Question :=
  { name := "git", whenP := fun _ => true, validateQ := none }

/-- Install question of the new wizard (cli.ts lines 224-229). -/
def installQuestion : Question :=
  { name := "install", whenP := fun _ => true, validateQ := none }

/-- The question list passed to `inquirer.prompt` in `inquireNewProject`
(cli.ts lines 230-237). -/
def newQuestions (fsExists : String → Bool) : List Question :=
  [nameQuestion fsExists, frameworkQuestion, styleQuestion, proxyQuestion, gitQuestion,
    installQuestion]

/-- The options built by `inquireNewProject` (cli.ts lines 238-247): every
field is populated from the answer bag; in particular
`proxy: { target: answers.proxy }` is always present. -/
def inquireNewProjectOptions (fsExists : String → Bool) (user : String → Ans) :
    NewProjectOptions :=
  let answers := promptList (newQuestions fsExists) user
  { name := ansToStringJs (answers "projectName"),
    style := ansToStringJs (answers "style"),
    angular := some (jsEqStr (answers "framework") "angular"),
    proxy := some { target := ansToStringJs (answers "proxy") },
    git := some (ansTruthy (answers "git")),
    install := some (ansTruthy (answers "install")) }

/-- The named commands registered on the commander program. -/
inductive Command
| newC
| serveC
| buildC
| setC
| loginC
deriving DecidableEq

/-- Resolution of a command token against the registered command names. -/
def parseCommand (tok : String) : Option Command :=
  if tok = "new" then some Command.newC
  else if tok = "serve" then some Command.serveC
  else if tok = "build" then some Command.buildC
  else if tok = "set" then some Command.setC
  else if tok = "login" then some Command.loginC
  else none

/-- Routing result: either a known command is dispatched to its action, or
the `command:*` handler fires. -/
inductive RouteResult
| dispatchKnown (c : Command)
| unknown (trace : List Event) (outcome : Outcome)
deriving DecidableEq

/-- The command router including the `command:*` handler (cli.ts lines
323-325): any token that matches no registered command name triggers
`exit` with the unknown-command message and outputHelp = true. -/
def routeToken (tok : String) : RouteResult :=
  match parseCommand tok with
  | some c => RouteResult.dispatchKnown c
  | none =>
    let ex := exitRun (some ("Unknown command \x27" ++ tok ++ "\x27")) true
    RouteResult.unknown ex.1 ex.2

/-! Helper lemmas. -/

theorem nameValidate_ok_iff (fsExists : String → Bool) (s : String) :
    nameValidate fsExists s = Valid.ok ↔
      (matchesNamePattern s = true ∧ fsExists s = false) := by
  unfold nameValidate
  cases hm : matchesNamePattern s <;> cases hf : fsExists s <;> simp [hm, hf]

theorem finishNew_name (o : NewProjectOptions) (m s a i g : Bool) :
    (finishNew o m s a i g).name = o.name := by
  unfold finishNew
  cases a <;> cases i <;> simp

theorem finishNew_proxy (o : NewProjectOptions) (m s a i g : Bool) :
    (finishNew o m s a i g).proxy = o.proxy := by
  unfold finishNew
  cases a <;> cases i <;> simp

theorem finishNew_style (o : NewProjectOptions) (m s a i g : Bool) :
    (finishNew o m s a i g).style =
      (if m then "material" else if s then "soho" else "none") := by
  unfold finishNew
  cases a <;> cases i <;> simp

theorem serve_answers_port (user : String → Ans) :
    promptList serveQuestions user "port" = some (user "port") := by
  simp only [promptList, serveQuestions, List.foldl_cons, List.foldl_nil, portQuestion,
    mtQuestion, ionQuestion, if_true]
  split <;> simp [insertAns, emptyAnswers]

theorem parseIntJs_digits {s : String} (h : matchesPortPattern s = true) :
    ∃ n, parseIntJs s = JsNumber.num n := by
  unfold matchesPortPattern at h
  unfold parseIntJs
  cases hd : s.data with
  | nil => rw [hd] at h; simp at h
  | cons c cs =>
    rw [hd] at h
    simp only [List.isEmpty_cons, List.all_cons, Bool.and_eq_true, Bool.not_eq_true] at h
    exact ⟨parseDigitsAcc (c :: cs) 0, by simp [h.2.1]⟩

theorem portValidate_ok {s : String} (h : portValidate s = Valid.ok) :
    matchesPortPattern s = true := by
  cases hm : matchesPortPattern s
  · simp [portValidate, hm] at h
  · rfl

/-! Claim theorems. -/

/-- C4: in the serve wizard sequence, whenever the multi-tenant question is
answered false the ion-api question is skipped and the collected answer set
contains no ionApi key; whenever it is answered true the ion-api question is
asked and its answer is included. -/
theorem serve_wizard_ion_conditional (user : String → Ans) :
    (user "multiTenant" = Ans.b false → promptList serveQuestions user "ionApi" = none) ∧
    (user "multiTenant" = Ans.b true →
      promptList serveQuestions user "ionApi" = some (user "ionApi")) := by
  constructor <;> intro h <;>
    simp [promptList, serveQuestions, portQuestion, mtQuestion, ionQuestion, insertAns,
      emptyAnswers, ansTruthy, h]

/-- Concrete serve-wizard user who answers every confirm question no. -/
def uMTFalse : String → Ans := fun _ => Ans.b false

/-- Concrete serve-wizard user who answers every confirm question yes. -/
def uMTTrue : String → Ans := fun _ => Ans.b true

/-- Witness for C4 at two concrete answer functions. -/
theorem serve_wizard_ion_conditional_witness :
    promptList serveQuestions uMTFalse "ionApi" = none ∧
    promptList serveQuestions uMTTrue "ionApi" = some (Ans.b true) :=
  ⟨(serve_wizard_ion_conditional uMTFalse).1 rfl,
   (serve_wizard_ion_conditional uMTTrue).2 rfl⟩

/-- C2 (amended): the port is the number 8080 when no port input was given,
and the wizard path parses the validated port answer to an integer; but in
the flag path a supplied nonempty port value is dispatched as the raw
string.  `odin serve` with no flags dispatches
`{ port: 8080, multiTenant: false, ionApi: false }`. -/
theorem serve_port_resolution :
    (serveCommandAction none false false =
      { port := PortValue.jsnum (JsNumber.num 8080), multiTenant := false, ionApi := false }) ∧
    (∀ (s : String) (mt ion : Bool), s.data.isEmpty = false →
      (serveCommandAction (some s) mt ion).port = PortValue.str s) ∧
    (∀ user : String → Ans, portValidate (ansToStringJs (some (user "port"))) = Valid.ok →
      ∃ n, (inquireServeProjectOptions user).port = PortValue.jsnum (JsNumber.num n)) := by
  refine ⟨rfl, ?_, ?_⟩
  · intro s mt ion h
    simp [serveCommandAction, h]
  · intro user h
    obtain ⟨n, hn⟩ := parseIntJs_digits (portValidate_ok h)
    exact ⟨n, by simp [inquireServeProjectOptions, serve_answers_port user, hn]⟩

/-- Concrete serve-wizard user who answers 8080 to every question. -/
def uPort8080 : String → Ans := fun _ => Ans.s "8080"

/-- Witness for C2 at a concrete flag string and a concrete wizard user. -/
theorem serve_port_resolution_witness :
    (serveCommandAction (some "3000") false false).port = PortValue.str "3000" ∧
    (∃ n, (inquireServeProjectOptions uPort8080).port = PortValue.jsnum (JsNumber.num n)) :=
  ⟨serve_port_resolution.2.1 "3000" false false (by decide),
   serve_port_resolution.2.2 uPort8080 (by decide)⟩

/-- Counterexample to C2 as stated: in the flag path a supplied port is left
as the raw string "3000", not coerced to a number. -/
theorem serve_flag_port_raw_counterexample :
    (serveCommandAction (some "3000") false false).port = PortValue.str "3000" ∧
    PortValue.str "3000" ≠ PortValue.jsnum (JsNumber.num 3000) := by
  exact ⟨rfl, by decide⟩

/-- C1 (amended): for newProject, serveProject and setConfiguration a
collaborator error makes the process print the error detail plus a fixed
failure summary and terminate with exit status 1 and no help text; a
buildProject error is only logged with a Build failed prefix and the process
completes normally; a login error is not handled by the CLI at all and
escapes as an unhandled promise rejection. -/
theorem collaborator_error_handling :
    (∀ (options : NewProjectOptions) (e : String),
      wrapNew options (CollabResult.error e) =
        ([Event.call Collab.newP, Event.err e,
          Event.err "ERROR: Failed to create new project"], Outcome.exit 1)) ∧
    (∀ e : String,
      wrapServe true (CollabResult.error e) =
        ([Event.out "Starting Dev Server...", Event.call Collab.serveP, Event.err e,
          Event.err "ERROR: Serving was aborted because of an error"], Outcome.exit 1)) ∧
    (∀ key value e : String,
      setAction key value (CollabResult.error e) =
        ([Event.call Collab.setP, Event.err e, Event.err "ERROR: Configuration failed"],
         Outcome.exit 1)) ∧
    (∀ e : String,
      buildAction true (CollabResult.error e) =
        ([Event.out "Building project...", Event.call Collab.buildP,
          Event.err ("Build failed: " ++ e)], Outcome.normal)) ∧
    (∀ e : String,
      loginAction (CollabResult.error e) =
        ([Event.out "Logging in to the configured environment. A separate browser window will open with the login screen.",
          Event.call Collab.loginP], Outcome.unhandled e)) :=
  ⟨fun _ _ => rfl, fun _ => rfl, fun _ _ _ => rfl, fun _ => rfl, fun _ => rfl⟩

/-- Counterexample to C1 as stated: a buildProject error is caught by a
handler that only logs; the process does not terminate with a non-zero exit
status. -/
theorem build_error_no_exit_counterexample :
    buildAction true (CollabResult.error "boom") =
      ([Event.out "Building project...", Event.call Collab.buildP,
        Event.err "Build failed: boom"], Outcome.normal) ∧
    (buildAction true (CollabResult.error "boom")).2 ≠ Outcome.exit 1 :=
  ⟨rfl, by decide⟩

/-- C3 (amended): in direct-flag mode, when odin.json is absent the build
action exits with code 1, prints no help text and never invokes
buildProject; the top-level wizard build choice, however, invokes
buildProject unconditionally, without checking for the marker file. -/
theorem build_marker_check :
    (∀ r : CollabResult,
      buildAction false r =
        ([Event.err "ERROR: Could not find an Odin configuration file."], Outcome.exit 1)) ∧
    (∀ r : CollabResult, noCalls (buildAction false r).1 = true) ∧
    (∀ (odinJsonExists : Bool) (r : CollabResult),
      (wizardBuild odinJsonExists r).1 = [Event.call Collab.buildP]) :=
  ⟨fun _ => rfl, fun _ => rfl, fun _ r => by cases r <;> rfl⟩

/-- Counterexample to C3 as stated: the wizard build choice invokes
buildProject even when odin.json is absent, and does not exit with code 1. -/
theorem wizard_build_skips_marker_counterexample :
    (wizardBuild false CollabResult.ok).1 = [Event.call Collab.buildP] ∧
    (wizardBuild false CollabResult.ok).2 ≠ Outcome.exit 1 :=
  ⟨rfl, by decide⟩

/-- Inversion of the new command action in flag mode: a dispatch means the
project name was nonempty, and the dispatched options come from `finishNew`
over the base object, with the proxy field filled in exactly when a nonempty
and valid proxy flag was supplied. -/
theorem newCommandAction_dispatch_cases (pn : String) (proxyFlag : Option String)
    (m s a i g : Bool) (opts : NewProjectOptions)
    (h : newCommandAction (some pn) proxyFlag m s a i g = NewFlagResult.dispatch opts) :
    pn.data.isEmpty = false ∧
    ((opts = finishNew { name := pn, style := "none", proxy := none, git := none,
                         angular := none, install := none } m s a i g ∧
      (proxyFlag = none ∨ ∃ u, proxyFlag = some u ∧ u.data.isEmpty = true)) ∨
     (∃ u, proxyFlag = some u ∧ u.data.isEmpty = false ∧ isValidProxyUrl u = true ∧
       opts = finishNew { name := pn, style := "none", proxy := some { target := u },
                          git := none, angular := none, install := none } m s a i g)) := by
  cases hpn : pn.data.isEmpty with
  | true => simp [newCommandAction, hpn] at h
  | false =>
    refine ⟨rfl, ?_⟩
    cases hpf : proxyFlag with
    | none =>
      simp [newCommandAction, hpn, hpf] at h
      exact Or.inl ⟨h.symm, Or.inl rfl⟩
    | some u =>
      cases hu : u.data.isEmpty with
      | true =>
        simp [newCommandAction, hpn, hpf, hu] at h
        exact Or.inl ⟨h.symm, Or.inr ⟨u, rfl, hu⟩⟩
      | false =>
        cases hv : isValidProxyUrl u with
        | false => simp [newCommandAction, hpn, hpf, hu, hv] at h
        | true =>
          simp [newCommandAction, hpn, hpf, hu, hv] at h
          exact Or.inr ⟨u, rfl, hu, hv, h.symm⟩

/-- C5 (amended): in wizard mode the dispatched project name is a nonempty
string of letters, digits and dashes that names no existing filesystem
entry; in flag mode the name is dispatched exactly as supplied and is only
guaranteed nonempty, with no character or existence validation. -/
theorem project_name_dispatch :
    (∀ (fsExists : String → Bool) (user : String → Ans),
      nameValidate fsExists (ansToStringJs (some (user "projectName"))) = Valid.ok →
        matchesNamePattern (inquireNewProjectOptions fsExists user).name = true ∧
        fsExists (inquireNewProjectOptions fsExists user).name = false ∧
        (inquireNewProjectOptions fsExists user).name.data.isEmpty = false) ∧
    (∀ (pn : String) (proxyFlag : Option String) (m s a i g : Bool)
        (opts : NewProjectOptions),
      newCommandAction (some pn) proxyFlag m s a i g = NewFlagResult.dispatch opts →
        opts.name = pn ∧ pn.data.isEmpty = false) := by
  constructor
  · intro fsE user h
    have hname : (inquireNewProjectOptions fsE user).name
        = ansToStringJs (some (user "projectName")) := rfl
    rw [hname]
    obtain ⟨h1, h2⟩ := (nameValidate_ok_iff fsE _).1 h
    refine ⟨h1, h2, ?_⟩
    have h3 := h1
    unfold matchesNamePattern at h3
    simp only [Bool.and_eq_true, Bool.not_eq_true'] at h3
    exact h3.1
  · intro pn proxyFlag m s a i g opts h
    obtain ⟨hpn, hcases⟩ := newCommandAction_dispatch_cases pn proxyFlag m s a i g opts h
    refine ⟨?_, hpn⟩
    rcases hcases with ⟨he, -⟩ | ⟨u, -, -, -, he⟩ <;> rw [he, finishNew_name]

/-- Filesystem oracle of an empty working directory. -/
def fsNone : String → Bool := fun _ => false

/-- Concrete new-wizard user who answers my-app to every input question. -/
def uNewApp : String → Ans := fun _ => Ans.s "my-app"

/-- Witness for C5 at a concrete wizard user and a concrete flag invocation. -/
theorem project_name_dispatch_witness :
    (matchesNamePattern (inquireNewProjectOptions fsNone uNewApp).name = true ∧
     fsNone (inquireNewProjectOptions fsNone uNewApp).name = false ∧
     (inquireNewProjectOptions fsNone uNewApp).name.data.isEmpty = false) ∧
    (({ name := "app", style := "none", proxy := none, git := some true, angular := none,
        install := none } : NewProjectOptions).name = "app" ∧
     ("app" : String).data.isEmpty = false) :=
  ⟨project_name_dispatch.1 fsNone uNewApp (by decide),
   project_name_dispatch.2 "app" none false false false false false _ (by decide)⟩

/-- Counterexample to C5 as stated: in flag mode a name with a space and an
exclamation mark is dispatched to newProject without validation. -/
theorem flag_name_unvalidated_counterexample :
    newCommandAction (some "bad name!") none false false false false false =
      NewFlagResult.dispatch { name := "bad name!", style := "none", proxy := none,
                               git := some true, angular := none, install := none } ∧
    matchesNamePattern "bad name!" = false :=
  ⟨by decide, by decide⟩

/-- C6: in direct-flag mode, style resolution is first-match-wins over
material, then soho, then the default none: with both style flags the
dispatched style is material, never soho; with only the soho flag it is
soho; with neither it is none. -/
theorem style_first_match_wins :
    ∀ (pn : String) (proxyFlag : Option String) (a i g : Bool)
      (opts : NewProjectOptions),
      (newCommandAction (some pn) proxyFlag true true a i g = NewFlagResult.dispatch opts →
        opts.style = "material") ∧
      (newCommandAction (some pn) proxyFlag false true a i g = NewFlagResult.dispatch opts →
        opts.style = "soho") ∧
      (newCommandAction (some pn) proxyFlag false false a i g = NewFlagResult.dispatch opts →
        opts.style = "none") := by
  intro pn proxyFlag a i g opts
  refine ⟨?_, ?_, ?_⟩
  · intro h
    obtain ⟨-, hcases⟩ := newCommandAction_dispatch_cases _ _ _ _ _ _ _ _ h
    rcases hcases with ⟨he, -⟩ | ⟨u, -, -, -, he⟩ <;> rw [he, finishNew_style] <;> rfl
  · intro h
    obtain ⟨-, hcases⟩ := newCommandAction_dispatch_cases _ _ _ _ _ _ _ _ h
    rcases hcases with ⟨he, -⟩ | ⟨u, -, -, -, he⟩ <;> rw [he, finishNew_style] <;> rfl
  · intro h
    obtain ⟨-, hcases⟩ := newCommandAction_dispatch_cases _ _ _ _ _ _ _ _ h
    rcases hcases with ⟨he, -⟩ | ⟨u, -, -, -, he⟩ <;> rw [he, finishNew_style] <;> rfl

/-- Witness for C6 at a concrete flag invocation with both style flags. -/
theorem style_first_match_wins_witness :
    ({ name := "app", style := "material", proxy := none, git := some true, angular := none,
       install := none } : NewProjectOptions).style = "material" :=
  (style_first_match_wins "app" none false false false _).1 (by decide)

/-- C7: the options dispatched in flag mode carry a proxy field iff a proxy
input was supplied (a nonempty proxy flag value); with no proxy input the
field is entirely absent, and with a nonempty one that survives validation
the field holds exactly that target. -/
theorem proxy_field_iff_supplied :
    ∀ (pn : String) (proxyFlag : Option String) (m s a i g : Bool)
      (opts : NewProjectOptions),
      newCommandAction (some pn) proxyFlag m s a i g = NewFlagResult.dispatch opts →
        ((proxyFlag = none → opts.proxy = none) ∧
         (∀ u, proxyFlag = some u → u.data.isEmpty = false →
           opts.proxy = some { target := u }) ∧
         (opts.proxy.isSome = true ↔ ∃ u, proxyFlag = some u ∧ u.data.isEmpty = false)) := by
  intro pn proxyFlag m s a i g opts h
  obtain ⟨-, hcases⟩ := newCommandAction_dispatch_cases _ _ _ _ _ _ _ _ h
  rcases hcases with ⟨he, hpf⟩ | ⟨u, hpf, hu, -, he⟩
  · have hpx : opts.proxy = none := by rw [he]; exact finishNew_proxy _ _ _ _ _ _
    have hnotsup : ∀ u, proxyFlag = some u → u.data.isEmpty = true := by
      intro u huu
      rcases hpf with h0 | ⟨u0, h0, hemp⟩
      · rw [h0] at huu; simp at huu
      · rw [h0] at huu
        rw [← Option.some.inj huu]
        exact hemp
    refine ⟨fun _ => hpx, ?_, ?_⟩
    · intro u huu hne
      have hth := hnotsup u huu
      simp [hth] at hne
    · rw [hpx]
      simp only [Option.isSome_none]
      constructor
      · intro hfalse; simp at hfalse
      · rintro ⟨u, huu, hne⟩
        have hth := hnotsup u huu
        simp [hth] at hne
  · have hpx : opts.proxy = some { target := u } := by
      rw [he]; exact finishNew_proxy _ _ _ _ _ _
    refine ⟨?_, ?_, ?_⟩
    · intro h0; rw [h0] at hpf; simp at hpf
    · intro u2 huu hne
      rw [hpf] at huu
      rw [hpx, ← Option.some.inj huu]
    · rw [hpx]
      simp only [Option.isSome_some]
      exact ⟨fun _ => ⟨u, hpf, hu⟩, fun _ => trivial⟩

/-- Witness for C7 at a concrete flag invocation with a valid proxy URL. -/
theorem proxy_field_iff_supplied_witness :
    ({ name := "app", style := "none", proxy := some { target := "http://h:1" },
       git := some true, angular := none, install := none } : NewProjectOptions).proxy =
      some { target := "http://h:1" } :=
  (proxy_field_iff_supplied "app" (some "http://h:1") false false false false false _
    (by decide)).2.1 "http://h:1" rfl (by decide)

/-- C8: the project-name validator accepts every string of letters, digits
and dashes that names no existing entry; every other string gets a nonempty
rejection reason, the invalid-characters message when the pattern fails and
the directory-exists message when the pattern holds but an entry exists. -/
theorem name_validator_cases :
    ∀ (fsExists : String → Bool) (s : String),
      (matchesNamePattern s = true → fsExists s = false →
        nameValidate fsExists s = Valid.ok) ∧
      (matchesNamePattern s = false →
        nameValidate fsExists s =
          Valid.reject "The project name can only have letters, numbers and dashes") ∧
      (matchesNamePattern s = true → fsExists s = true →
        nameValidate fsExists s = Valid.reject "The directory already exists.") ∧
      (∀ reason, nameValidate fsExists s = Valid.reject reason →
        reason.data.isEmpty = false) := by
  intro fsE s
  refine ⟨?_, ?_, ?_, ?_⟩
  · intro h1 h2; simp [nameValidate, h1, h2]
  · intro h1; simp [nameValidate, h1]
  · intro h1 h2; simp [nameValidate, h1, h2]
  · intro reason h
    cases hm : matchesNamePattern s with
    | false =>
      simp [nameValidate, hm] at h
      rw [← h]; decide
    | true =>
      cases hf : fsE s with
      | false => simp [nameValidate, hm, hf] at h
      | true =>
        simp [nameValidate, hm, hf] at h
        rw [← h]; decide

/-- Witness for C8 at concrete accepted and rejected names. -/
theorem name_validator_cases_witness :
    nameValidate fsNone "my-app" = Valid.ok ∧
    nameValidate fsNone "bad name!" =
      Valid.reject "The project name can only have letters, numbers and dashes" :=
  ⟨(name_validator_cases fsNone "my-app").1 (by decide) (by decide),
   (name_validator_cases fsNone "bad name!").2.1 (by decide)⟩

/-- C9: every command token that matches no registered command name makes
the router print an error naming the token, print the help text and exit
with code 1, with no collaborator invoked. -/
theorem unknown_command_exit :
    ∀ tok : String, parseCommand tok = none →
      routeToken tok =
        RouteResult.unknown
          [Event.err ("ERROR: " ++ ("Unknown command \x27" ++ tok ++ "\x27")), Event.help]
          (Outcome.exit 1) ∧
      noCalls [Event.err ("ERROR: " ++ ("Unknown command \x27" ++ tok ++ "\x27")),
        Event.help] = true := by
  intro tok h
  constructor
  · unfold routeToken
    rw [h]
    rfl
  · rfl

/-- Witness for C9 at the token frobnicate. -/
theorem unknown_command_exit_witness :
    routeToken "frobnicate" =
      RouteResult.unknown
        [Event.err ("ERROR: " ++ ("Unknown command \x27" ++ "frobnicate" ++ "\x27")),
         Event.help] (Outcome.exit 1) ∧
    noCalls [Event.err ("ERROR: " ++ ("Unknown command \x27" ++ "frobnicate" ++ "\x27")),
      Event.help] = true :=
  unknown_command_exit "frobnicate" (by decide)

/-- C10: every options object produced by the new-project wizard carries a
proxy field whose target is the answer to the proxy question, which is asked
unconditionally; the wizard path never omits the proxy field. -/
theorem wizard_proxy_always_present :
    ∀ (fsExists : String → Bool) (user : String → Ans),
      promptList (newQuestions fsExists) user "proxy" = some (user "proxy") ∧
      (inquireNewProjectOptions fsExists user).proxy =
        some { target := ansToStringJs (some (user "proxy")) } := by
  intro fsE user
  exact ⟨rfl, rfl⟩

end OdinCli
